import Mathlib

/-!
Shallow embedding of the kernel type compatibility and introspection layer
of the scx repository: the BTF query primitives `read_enum` and
`struct_has_field` from `src/rust/scx_utils/src/compat.rs`, the
`scx_ops_load` adaptation step, the lazily-initialized `VMLINUX_BTF`
cache, and the load/attach lifecycle driven by
`src/scheds/rust/scx_bpfland/src/main.rs`.

Machine integers are modelled as `Nat` (unsigned) and `Int` (signed),
with explicit reduction modulo a power of two wherever the Rust code
performs a narrowing or sign-changing cast.  Fallible operations return
`Except CompatErr`.
-/

set_option autoImplicit false

deriving instance DecidableEq for Except

namespace Scx

/-- BTF kind tag for structures (`BTF_KIND_STRUCT` in libbpf). -/
def BTF_KIND_STRUCT : Nat := 4

/-- BTF kind tag for 32-bit enumerations (`BTF_KIND_ENUM`). -/
def BTF_KIND_ENUM : Nat := 6

/-- BTF kind tag for 64-bit enumerations (`BTF_KIND_ENUM64`). -/
def BTF_KIND_ENUM64 : Nat := 19

/-- One enumerator of a 32-bit enumeration: a name offset into the string
table and a signed 32-bit value (`struct btf_enum` has `__s32 val`). -/
structure BtfEnum where
  name_off : Nat
  val : Int
deriving DecidableEq, Repr

/-- One enumerator of a 64-bit enumeration: a name offset and the value
split into unsigned low and high 32-bit halves (`struct btf_enum64`). -/
structure BtfEnum64 where
  name_off : Nat
  val_lo32 : Nat
  val_hi32 : Nat
deriving DecidableEq, Repr

/-- One member of a structure type; this layer only needs its name offset
(`struct btf_member`). -/
structure BtfMember where
  name_off : Nat
deriving DecidableEq, Repr

/-- A BTF type record: the name offset, the packed `info` word (kind tag in
bits 24..28, `vlen` in the low 16 bits), and the trailing memory following
the fixed header, viewed under each of the three possible layouts.  The
Rust code reinterprets the raw bytes after the header as an array of
enumerators or members depending on the kind tag; here each
reinterpretation is a list, of which an accessor takes the first `vlen`
entries, mirroring `from_raw_parts(ptr, vlen)`. -/
structure BtfType where
  name_off : Nat
  info : Nat
  enumsRaw : List BtfEnum
  enums64Raw : List BtfEnum64
  membersRaw : List BtfMember
deriving Repr

/-- The type database: the sequence of type records (addressed by id) and
the string table, addressed by byte offset; `none` models
`btf__name_by_offset` returning NULL or a non-UTF-8 string. -/
structure Btf where
  types : List BtfType
  strs : Nat → Option String

/-- Typed errors of the compatibility layer.  The Rust code returns
`anyhow` errors; the spec's taxonomy distinguishes `NotFound` (absent
type or member) from fatal malformed-database conditions. -/
inductive CompatErr where
  /-- No type of the requested name (and kind) exists: `btf__find_by_name`
  or `btf__find_by_name_kind` returned a negative id. -/
  | notFoundType (tname : String)
  /-- The member scan completed without a match, or the type is not an
  enumeration: the final `Err` of `read_enum`. -/
  | notFoundMember (tname mname : String)
  /-- `btf__name_by_offset` returned NULL or a non-UTF-8 string. -/
  | nullName (off : Nat)
  /-- `btf__type_by_id` returned NULL. -/
  | nullType (tid : Nat)
deriving DecidableEq, Repr

/-- Classifies an error as the spec's recoverable `NotFound`. -/
def CompatErr.isNotFound : CompatErr → Bool
  | .notFoundType _ => true
  | .notFoundMember _ _ => true
  | _ => false

/-- Kind tag of a record: `(t.info >> 24) & 0x1f`. -/
def btf_kind (t : BtfType) : Nat := (t.info >>> 24) &&& 0x1f

/-- Declared count of trailing sub-records: `t.info & 0xffff`. -/
def btf_vlen (t : BtfType) : Nat := t.info &&& 0xffff

/-- The enumerator array of a record: exactly `vlen` entries of the
trailing memory interpreted as `btf_enum`, as built by
`from_raw_parts(btf_type_plus_1(t), btf_vlen(t))`. -/
def btf_enum (t : BtfType) : List BtfEnum := t.enumsRaw.take (btf_vlen t)

/-- The 64-bit enumerator array of a record, `vlen` entries. -/
def btf_enum64 (t : BtfType) : List BtfEnum64 := t.enums64Raw.take (btf_vlen t)

/-- The member array of a record, `vlen` entries. -/
def btf_members (t : BtfType) : List BtfMember := t.membersRaw.take (btf_vlen t)

/-- Name lookup by string-table offset; fails when the table has no valid
string there (the Rust code bails on NULL or invalid UTF-8). -/
def btf_name_str_by_offset (b : Btf) (off : Nat) : Except CompatErr String :=
  match b.strs off with
  | some s => .ok s
  | none => .error (.nullName off)

/-- Id scan underlying libbpf's find-by-name operations: the id of the
first record (in id order, starting from `i`) satisfying `p`. -/
def findTypeIdx (p : BtfType → Bool) : Nat → List BtfType → Option Nat
  | _, [] => none
  | i, t :: rest => if p t then some i else findTypeIdx p (i + 1) rest

/-- Model of libbpf's `btf__find_by_name`: the id of the first type record
whose name resolves to `tname`, or `none` (a negative return in C). -/
def btf_find_by_name (b : Btf) (tname : String) : Option Nat :=
  findTypeIdx (fun t => b.strs t.name_off == some tname) 0 b.types

/-- Model of libbpf's `btf__find_by_name_kind`: like `btf_find_by_name`
but only records whose kind tag equals `kind` qualify. -/
def btf_find_by_name_kind (b : Btf) (tname : String) (kind : Nat) : Option Nat :=
  findTypeIdx (fun t => b.strs t.name_off == some tname && btf_kind t == kind) 0 b.types

/-- Model of `btf__type_by_id`: record lookup by id, `none` for NULL. -/
def btf_type_by_id (b : Btf) (tid : Nat) : Option BtfType := b.types[tid]?

/-- Rust's `v as u64` on an `i32` value: sign-extension to 64 bits, i.e.
reduction of the signed value modulo `2^64`. -/
def i32_as_u64 (v : Int) : Nat := (v % (2 : Int) ^ 64).toNat

/-- Reassembly of a 64-bit enumerator's value:
`((val_hi32 as u64) << 32) | (val_lo32 as u64)`. -/
def enum64_val (e : BtfEnum64) : Nat := (e.val_hi32 <<< 32) ||| e.val_lo32

/-- The `for e in btf_enum(t)` loop of `read_enum`: first enumerator whose
resolved name equals `name` yields `Ok(e.val as u64)`; a name-resolution
failure propagates; at the end of the array the loop falls through
(`none`). -/
def scanEnum (b : Btf) (name : String) : List BtfEnum → Except CompatErr (Option Nat)
  | [] => .ok none
  | e :: rest =>
    match btf_name_str_by_offset b e.name_off with
    | .error er => .error er
    | .ok n => if n = name then .ok (some (i32_as_u64 e.val)) else scanEnum b name rest

/-- The `for e in btf_enum64(t)` loop of `read_enum`. -/
def scanEnum64 (b : Btf) (name : String) : List BtfEnum64 → Except CompatErr (Option Nat)
  | [] => .ok none
  | e :: rest =>
    match btf_name_str_by_offset b e.name_off with
    | .error er => .error er
    | .ok n => if n = name then .ok (some (enum64_val e)) else scanEnum64 b name rest

/-- The `for m in btf_members(t)` loop of `struct_has_field`: `Ok(true)` on
the first name match, `Ok(false)` when the scan completes. -/
def scanMembers (b : Btf) (field : String) : List BtfMember → Except CompatErr Bool
  | [] => .ok false
  | m :: rest =>
    match btf_name_str_by_offset b m.name_off with
    | .error er => .error er
    | .ok n => if n = field then .ok true else scanMembers b field rest

/-- `read_enum(type_name, name)` from `compat.rs`: find the type by name,
check its kind tag, scan the matching enumerator array; every failure is a
typed error, and both the non-enumeration kind and an unmatched scan fall
through to the final member-not-found error. -/
def read_enum (b : Btf) (type_name name : String) : Except CompatErr Nat :=
  match btf_find_by_name b type_name with
  | none => .error (.notFoundType type_name)
  | some tid =>
    match btf_type_by_id b tid with
    | none => .error (.nullType tid)
    | some t =>
      if btf_kind t = BTF_KIND_ENUM then
        match scanEnum b name (btf_enum t) with
        | .error er => .error er
        | .ok (some v) => .ok v
        | .ok none => .error (.notFoundMember type_name name)
      else if btf_kind t = BTF_KIND_ENUM64 then
        match scanEnum64 b name (btf_enum64 t) with
        | .error er => .error er
        | .ok (some v) => .ok v
        | .ok none => .error (.notFoundMember type_name name)
      else .error (.notFoundMember type_name name)

/-- `struct_has_field(type_name, field)` from `compat.rs`: find the type by
name filtered to structure kind, then scan the member array. -/
def struct_has_field (b : Btf) (type_name field : String) : Except CompatErr Bool :=
  match btf_find_by_name_kind b type_name BTF_KIND_STRUCT with
  | none => .error (.notFoundType type_name)
  | some tid =>
    match btf_type_by_id b tid with
    | none => .error (.nullType tid)
    | some t => scanMembers b field (btf_members t)

/-- The caller-controlled part of `struct sched_ext_ops` that
`scx_ops_load!` adapts: the optional `exit_dump_len` field (a `u32`). -/
structure SchedExtOps where
  exit_dump_len : Nat
deriving DecidableEq, Repr

/-- Outcome of the adaptation stage of `scx_ops_load!`: the configuration
as handed to `skel.load()` and whether the compatibility warning fired. -/
structure LoadResult where
  ops : SchedExtOps
  warned : Bool
deriving DecidableEq, Repr

/-- The compatibility-adaptation stage of the `scx_ops_load!` macro in
`compat.rs`: probe `sched_ext_ops` for `exit_dump_len`; when the kernel
lacks the field and the caller requested a non-zero value, warn and clear
it to 0; otherwise pass the value through; then proceed to the external
`skel.load()` with the adapted configuration (an `.ok` result).  A probe
failure propagates via `?`. -/
def scx_ops_load (b : Btf) (ops : SchedExtOps) : Except CompatErr LoadResult :=
  match struct_has_field b "sched_ext_ops" "exit_dump_len" with
  | .error er => .error er
  | .ok has_field =>
    if !has_field && ops.exit_dump_len != 0 then
      .ok ⟨⟨0⟩, true⟩
    else
      .ok ⟨ops, false⟩

/-- States of the load/attach lifecycle: a skeleton not yet loaded, a
loaded-but-unattached skeleton, and an installed `struct_ops` link. -/
inductive ProtoState where
  | unloaded
  | loaded
  | attached
deriving DecidableEq, Repr

/-- The operations of the lifecycle: `scx_ops_load!`, `scx_ops_attach!`,
and dropping the attach link (`self.struct_ops.take()` in
`Scheduler::run`). -/
inductive ProtoOp where
  | load
  | attach
  | detach
deriving DecidableEq, Repr

/-- The transition function of the lifecycle enforced by the typestate of
`Scheduler::init` and `Scheduler::run` in `main.rs`: `scx_ops_load!`
consumes an open skeleton and yields a loaded one, `scx_ops_attach!`
requires a loaded skeleton and yields the attach link, and taking the
link releases the attachment; no other combination type-checks. -/
def protoStep : ProtoState → ProtoOp → Option ProtoState
  | .unloaded, .load => some .loaded
  | .loaded, .attach => some .attached
  | .attached, .detach => some .unloaded
  | _, _ => none

/-- Runs a sequence of lifecycle operations from a state; `none` as soon
as an operation is not available in the current state. -/
def runProto (s : ProtoState) : List ProtoOp → Option ProtoState
  | [] => some s
  | op :: rest =>
    match protoStep s op with
    | none => none
    | some s2 => runProto s2 rest

/-- The process-wide lazily-initialized cache holding `VMLINUX_BTF`:
`none` before first use, `some` forever after. -/
structure BtfCache where
  cache : Option Btf

/-- Dereferencing the `VMLINUX_BTF` lazy static: the first access runs the
loader and stores the result; every later access returns the stored
database unchanged. -/
def get_vmlinux_btf (loader : Unit → Btf) (s : BtfCache) : Btf × BtfCache :=
  match s.cache with
  | some b => (b, s)
  | none =>
    let b := loader ()
    (b, ⟨some b⟩)

/-- A `read_enum` call as the process performs it: through the cached
`VMLINUX_BTF` handle. -/
def read_enum_cached (loader : Unit → Btf) (s : BtfCache) (tn mn : String) :
    Except CompatErr Nat × BtfCache :=
  let p := get_vmlinux_btf loader s
  (read_enum p.1 tn mn, p.2)

/-- A `struct_has_field` call through the cached `VMLINUX_BTF` handle. -/
def struct_has_field_cached (loader : Unit → Btf) (s : BtfCache) (tn f : String) :
    Except CompatErr Bool × BtfCache :=
  let p := get_vmlinux_btf loader s
  (struct_has_field p.1 tn f, p.2)

/-! Concrete fixture databases, used to instantiate the theorems below on
closed inputs. -/

/-- A small string table for the fixtures. -/
def sampleStrs : Nat → Option String := fun off =>
  if off = 1 then some "sched_ext_ops"
  else if off = 2 then some "exit_dump_len"
  else if off = 3 then some "pid_type"
  else if off = 4 then some "PIDTYPE_PID"
  else if off = 5 then some "PIDTYPE_TGID"
  else if off = 6 then some "big_flags"
  else if off = 7 then some "BIG_FLAG"
  else if off = 8 then some "neg_flags"
  else if off = 9 then some "NEG_ONE"
  else if off = 10 then some "flags"
  else none

/-- A `sched_ext_ops` structure record with members `flags` and
`exit_dump_len`. -/
def schedExtOpsRec : BtfType :=
  ⟨1, (BTF_KIND_STRUCT <<< 24) ||| 2, [], [], [⟨10⟩, ⟨2⟩]⟩

/-- A `pid_type` 32-bit enumeration with `PIDTYPE_PID = 0` and
`PIDTYPE_TGID = 1`, as in the repository's own unit test. -/
def pidTypeRec : BtfType :=
  ⟨3, (BTF_KIND_ENUM <<< 24) ||| 2, [⟨4, 0⟩, ⟨5, 1⟩], [], []⟩

/-- A `big_flags` 64-bit enumeration with one enumerator `BIG_FLAG` whose
value has low half 5 and high half 3. -/
def bigFlagsRec : BtfType :=
  ⟨6, (BTF_KIND_ENUM64 <<< 24) ||| 1, [], [⟨7, 5, 3⟩], []⟩

/-- A `neg_flags` 32-bit enumeration with one enumerator `NEG_ONE = -1`. -/
def negFlagsRec : BtfType :=
  ⟨8, (BTF_KIND_ENUM <<< 24) ||| 1, [⟨9, -1⟩], [], []⟩

/-- A fixture database holding all four records above. -/
def sampleBtf : Btf :=
  ⟨[schedExtOpsRec, pidTypeRec, bigFlagsRec, negFlagsRec], sampleStrs⟩

/-- A `sched_ext_ops` record lacking `exit_dump_len` (an older kernel). -/
def schedExtOpsOldRec : BtfType :=
  ⟨1, (BTF_KIND_STRUCT <<< 24) ||| 1, [], [], [⟨10⟩]⟩

/-- A fixture database whose `sched_ext_ops` lacks `exit_dump_len`. -/
def sampleBtfOld : Btf := ⟨[schedExtOpsOldRec, pidTypeRec], sampleStrs⟩

/-- A record named `sched_ext_ops` that is an enumeration, not a
structure. -/
def schedExtOpsEnumRec : BtfType :=
  ⟨1, BTF_KIND_ENUM <<< 24, [], [], []⟩

/-- A fixture database in which the only type named `sched_ext_ops` is not
a structure. -/
def sampleBtfEnumOnly : Btf := ⟨[schedExtOpsEnumRec], sampleStrs⟩

/-- A record with `vlen = 2` but three entries of trailing memory under
every reinterpretation, to exercise the bounds of the accessors. -/
def overlongRec : BtfType :=
  ⟨0, 2, [⟨4, 0⟩, ⟨5, 1⟩, ⟨5, 7⟩], [⟨7, 1, 2⟩, ⟨7, 3, 4⟩, ⟨7, 5, 6⟩], [⟨10⟩, ⟨2⟩, ⟨10⟩]⟩

/-! Helper lemmas about the id scan and the three loop bodies. -/

theorem findTypeIdx_some_get {p : BtfType → Bool} :
    ∀ (l : List BtfType) (i j : Nat), findTypeIdx p i l = some j →
      ∃ k t, j = i + k ∧ l[k]? = some t ∧ p t = true := by
  intro l
  induction l with
  | nil => intro i j h; simp [findTypeIdx] at h
  | cons a rest ih =>
    intro i j h
    by_cases hp : p a
    · refine ⟨0, a, ?_, by simp, hp⟩
      simp [findTypeIdx, hp] at h
      omega
    · simp only [findTypeIdx, hp, if_false] at h
      obtain ⟨k, t, hk, hg, hpt⟩ := ih (i + 1) j h
      exact ⟨k + 1, t, by omega, by simpa using hg, hpt⟩

theorem findTypeIdx_none_of {p : BtfType → Bool} :
    ∀ (l : List BtfType) (i : Nat), (∀ t ∈ l, p t = false) →
      findTypeIdx p i l = none := by
  intro l
  induction l with
  | nil => intro i _; rfl
  | cons a rest ih =>
    intro i h
    have ha : p a = false := h a (by simp)
    simp only [findTypeIdx, ha, if_false]
    exact ih (i + 1) (fun t ht => h t (by simp [ht]))

theorem type_by_id_of_find {b : Btf} {tn : String} {tid : Nat}
    (h : btf_find_by_name b tn = some tid) :
    ∃ t, btf_type_by_id b tid = some t ∧ b.strs t.name_off = some tn := by
  obtain ⟨k, t, hk, hg, hpt⟩ := findTypeIdx_some_get b.types 0 tid h
  refine ⟨t, ?_, ?_⟩
  · rw [btf_type_by_id, hk]; simpa using hg
  · exact eq_of_beq hpt

theorem type_by_id_of_find_kind {b : Btf} {tn : String} {kind tid : Nat}
    (h : btf_find_by_name_kind b tn kind = some tid) :
    ∃ t, btf_type_by_id b tid = some t ∧ b.strs t.name_off = some tn ∧
      btf_kind t = kind := by
  obtain ⟨k, t, hk, hg, hpt⟩ := findTypeIdx_some_get b.types 0 tid h
  rw [Bool.and_eq_true] at hpt
  refine ⟨t, ?_, eq_of_beq hpt.1, by simpa using hpt.2⟩
  rw [btf_type_by_id, hk]; simpa using hg

theorem scanEnum_error_nullName {b : Btf} {mn : String} :
    ∀ (l : List BtfEnum) (er : CompatErr), scanEnum b mn l = .error er →
      ∃ off, er = .nullName off := by
  intro l
  induction l with
  | nil => intro er h; simp [scanEnum] at h
  | cons a rest ih =>
    intro er h
    simp only [scanEnum, btf_name_str_by_offset] at h
    cases hs : b.strs a.name_off with
    | none => rw [hs] at h; exact ⟨a.name_off, by simpa using h.symm⟩
    | some n =>
      rw [hs] at h
      by_cases hn : n = mn
      · simp [hn] at h
      · simp only [hn, if_false] at h
        exact ih er h

theorem scanEnum64_error_nullName {b : Btf} {mn : String} :
    ∀ (l : List BtfEnum64) (er : CompatErr), scanEnum64 b mn l = .error er →
      ∃ off, er = .nullName off := by
  intro l
  induction l with
  | nil => intro er h; simp [scanEnum64] at h
  | cons a rest ih =>
    intro er h
    simp only [scanEnum64, btf_name_str_by_offset] at h
    cases hs : b.strs a.name_off with
    | none => rw [hs] at h; exact ⟨a.name_off, by simpa using h.symm⟩
    | some n =>
      rw [hs] at h
      by_cases hn : n = mn
      · simp [hn] at h
      · simp only [hn, if_false] at h
        exact ih er h

theorem scanEnum_find_some {b : Btf} {mn : String} :
    ∀ (l : List BtfEnum) (e : BtfEnum),
      (∀ x ∈ l, (b.strs x.name_off).isSome) →
      l.find? (fun x => b.strs x.name_off == some mn) = some e →
      scanEnum b mn l = .ok (some (i32_as_u64 e.val)) := by
  intro l
  induction l with
  | nil => intro e _ h; simp at h
  | cons a rest ih =>
    intro e hwf hfind
    obtain ⟨n, hn⟩ := Option.isSome_iff_exists.mp (hwf a (by simp))
    by_cases hm : b.strs a.name_off == some mn
    · have hea : a = e := by
        simp [List.find?_cons, hm, Option.some.injEq] at hfind
        exact hfind
      subst hea
      have hnm : n = mn := by
        rw [hn] at hm
        simpa using eq_of_beq hm
      simp [scanEnum, btf_name_str_by_offset, hn, hnm]
    · have hfind2 : rest.find? (fun x => b.strs x.name_off == some mn) = some e := by
        simp [List.find?_cons, hm] at hfind
        exact hfind
      have hne : n ≠ mn := by
        intro hc
        rw [hn, hc] at hm
        simp at hm
      simp only [scanEnum, btf_name_str_by_offset, hn, hne, if_false]
      exact ih e (fun x hx => hwf x (by simp [hx])) hfind2

theorem scanEnum64_find_some {b : Btf} {mn : String} :
    ∀ (l : List BtfEnum64) (e : BtfEnum64),
      (∀ x ∈ l, (b.strs x.name_off).isSome) →
      l.find? (fun x => b.strs x.name_off == some mn) = some e →
      scanEnum64 b mn l = .ok (some (enum64_val e)) := by
  intro l
  induction l with
  | nil => intro e _ h; simp at h
  | cons a rest ih =>
    intro e hwf hfind
    obtain ⟨n, hn⟩ := Option.isSome_iff_exists.mp (hwf a (by simp))
    by_cases hm : b.strs a.name_off == some mn
    · have hea : a = e := by
        simp [List.find?_cons, hm, Option.some.injEq] at hfind
        exact hfind
      subst hea
      have hnm : n = mn := by
        rw [hn] at hm
        simpa using eq_of_beq hm
      simp [scanEnum64, btf_name_str_by_offset, hn, hnm]
    · have hfind2 : rest.find? (fun x => b.strs x.name_off == some mn) = some e := by
        simp [List.find?_cons, hm] at hfind
        exact hfind
      have hne : n ≠ mn := by
        intro hc
        rw [hn, hc] at hm
        simp at hm
      simp only [scanEnum64, btf_name_str_by_offset, hn, hne, if_false]
      exact ih e (fun x hx => hwf x (by simp [hx])) hfind2

theorem scanMembers_ok {b : Btf} {f : String} :
    ∀ (l : List BtfMember),
      (∀ m ∈ l, (b.strs m.name_off).isSome) →
      scanMembers b f l = .ok (l.any (fun m => b.strs m.name_off == some f)) := by
  intro l
  induction l with
  | nil => intro _; rfl
  | cons a rest ih =>
    intro hwf
    obtain ⟨n, hn⟩ := Option.isSome_iff_exists.mp (hwf a (by simp))
    by_cases hf : n = f
    · simp [scanMembers, btf_name_str_by_offset, hn, hf]
    · have hne : ((some n : Option String) == some f) = false := by
        simpa using hf
      simp only [scanMembers, btf_name_str_by_offset, hn, hf, if_false, List.any_cons,
        hne, Bool.false_or]
      exact ih (fun m hm => hwf m (by simp [hm]))

theorem read_enum_eq_scan32 {b : Btf} {tn mn : String} {tid : Nat} {t : BtfType}
    (hf : btf_find_by_name b tn = some tid)
    (hty : btf_type_by_id b tid = some t)
    (hk : btf_kind t = BTF_KIND_ENUM)
    {r : Option Nat} (hs : scanEnum b mn (btf_enum t) = .ok r) :
    read_enum b tn mn =
      match r with
      | some v => .ok v
      | none => .error (.notFoundMember tn mn) := by
  cases r <;> simp [read_enum, hf, hty, hk, hs]

theorem read_enum_eq_scan64 {b : Btf} {tn mn : String} {tid : Nat} {t : BtfType}
    (hf : btf_find_by_name b tn = some tid)
    (hty : btf_type_by_id b tid = some t)
    (hk : btf_kind t = BTF_KIND_ENUM64)
    {r : Option Nat} (hs : scanEnum64 b mn (btf_enum64 t) = .ok r) :
    read_enum b tn mn =
      match r with
      | some v => .ok v
      | none => .error (.notFoundMember tn mn) := by
  cases r <;> simp [read_enum, hf, hty, hk, hs, BTF_KIND_ENUM, BTF_KIND_ENUM64]

/-! Claim theorems. -/

/-- C1: when `struct_has_field` reports `exit_dump_len` absent from
`sched_ext_ops` and the caller requested a non-zero value, `scx_ops_load`
clears the field to 0, records the warning, and still proceeds to the
load (an `.ok` outcome); when the field is present, the caller's value is
passed through unchanged and no warning fires. -/
theorem scx_ops_load_exit_dump_len_compat (b : Btf) (ops : SchedExtOps) :
    (struct_has_field b "sched_ext_ops" "exit_dump_len" = .ok false →
       ops.exit_dump_len ≠ 0 →
       scx_ops_load b ops = .ok ⟨⟨0⟩, true⟩) ∧
    (struct_has_field b "sched_ext_ops" "exit_dump_len" = .ok true →
       scx_ops_load b ops = .ok ⟨ops, false⟩) := by
  constructor
  · intro hsf hne
    simp [scx_ops_load, hsf, hne]
  · intro hsf
    simp [scx_ops_load, hsf]

/-- Witness for C1 on the fixtures: a configuration requesting
`exit_dump_len = 42` is cleared to 0 with a warning on the database whose
`sched_ext_ops` lacks the field, and passed through unchanged on the
database that has it. -/
theorem scx_ops_load_exit_dump_len_compat_witness :
    scx_ops_load sampleBtfOld ⟨42⟩ = .ok ⟨⟨0⟩, true⟩ ∧
    scx_ops_load sampleBtf ⟨42⟩ = .ok ⟨⟨42⟩, false⟩ :=
  ⟨(scx_ops_load_exit_dump_len_compat sampleBtfOld ⟨42⟩).1 (by decide) (by decide),
   (scx_ops_load_exit_dump_len_compat sampleBtf ⟨42⟩).2 (by decide)⟩

/-- C4: `struct_has_field` resolves the type name filtered to structure
kind — any record its lookup returns is a structure with the queried
name, so a same-named non-structure type never satisfies it — and when no
structure of that name exists, it fails with the type-not-found error,
which is distinguishable from every successful boolean result. -/
theorem struct_has_field_struct_kind_only (b : Btf) (tn f : String) :
    (∀ tid t, btf_find_by_name_kind b tn BTF_KIND_STRUCT = some tid →
        btf_type_by_id b tid = some t →
        btf_kind t = BTF_KIND_STRUCT ∧ b.strs t.name_off = some tn) ∧
    ((∀ t ∈ b.types, ¬(b.strs t.name_off = some tn ∧ btf_kind t = BTF_KIND_STRUCT)) →
        struct_has_field b tn f = .error (.notFoundType tn)) ∧
    (∀ r : Bool, (Except.error (CompatErr.notFoundType tn) : Except CompatErr Bool) ≠ .ok r) := by
  refine ⟨?_, ?_, ?_⟩
  · intro tid t hfind hty
    obtain ⟨t2, hty2, hname, hkind⟩ := type_by_id_of_find_kind hfind
    rw [hty] at hty2
    obtain rfl : t = t2 := Option.some_inj.mp hty2
    exact ⟨hkind, hname⟩
  · intro hnone
    have hfind : btf_find_by_name_kind b tn BTF_KIND_STRUCT = none := by
      apply findTypeIdx_none_of
      intro t ht
      cases hs : b.strs t.name_off == some tn with
      | false => simp [hs]
      | true =>
        have h1 : b.strs t.name_off = some tn := eq_of_beq hs
        have h2 : btf_kind t ≠ BTF_KIND_STRUCT := fun hk => (hnone t ht) ⟨h1, hk⟩
        simp only [hs, Bool.true_and]
        exact beq_eq_false_iff_ne.mpr h2
    simp [struct_has_field, hfind]
  · intro r h
    simp at h

/-- Witness for C4: in the fixture whose only `sched_ext_ops` is an
enumeration, `struct_has_field` fails with the type-not-found error, and
that error differs from a successful `false`. -/
theorem struct_has_field_struct_kind_only_witness :
    struct_has_field sampleBtfEnumOnly "sched_ext_ops" "exit_dump_len" =
      .error (.notFoundType "sched_ext_ops") ∧
    (Except.error (CompatErr.notFoundType "sched_ext_ops") : Except CompatErr Bool) ≠
      .ok false :=
  ⟨(struct_has_field_struct_kind_only sampleBtfEnumOnly "sched_ext_ops"
      "exit_dump_len").2.1 (by decide),
   (struct_has_field_struct_kind_only sampleBtfEnumOnly "sched_ext_ops"
      "exit_dump_len").2.2 false⟩

/-- C5: once the structure record is located (the lookup and the id
dereference both succeeded), the member scan is total: provided every
member name resolves, it returns `.ok` of exactly the boolean "some
member's resolved name equals the queried field", and absence surfaces as
`.ok false`, never as an error. -/
theorem struct_has_field_scan_total (b : Btf) (tn f : String) (tid : Nat) (t : BtfType)
    (hfind : btf_find_by_name_kind b tn BTF_KIND_STRUCT = some tid)
    (hty : btf_type_by_id b tid = some t)
    (hwf : ∀ m ∈ btf_members t, (b.strs m.name_off).isSome) :
    struct_has_field b tn f =
      .ok ((btf_members t).any (fun m => b.strs m.name_off == some f)) := by
  simp only [struct_has_field, hfind, hty]
  exact scanMembers_ok (btf_members t) hwf

/-- Witness for C5: on the fixture database the member scan of
`sched_ext_ops` yields a successful boolean for a present field. -/
theorem struct_has_field_scan_total_witness :
    struct_has_field sampleBtf "sched_ext_ops" "exit_dump_len" =
      .ok ((btf_members schedExtOpsRec).any
        (fun m => sampleBtf.strs m.name_off == some "exit_dump_len")) :=
  struct_has_field_scan_total sampleBtf "sched_ext_ops" "exit_dump_len" 0
    schedExtOpsRec (by decide) rfl (by decide)

/-- C8: each trailing-array accessor yields a view of exactly the
record's declared `vlen` entries of the record's own trailing memory —
reads inside the bound hit the trailing memory at the same index, and any
index at or past `vlen` reads nothing. -/
theorem trailing_array_bounds (t : BtfType)
    (h1 : btf_vlen t ≤ t.enumsRaw.length)
    (h2 : btf_vlen t ≤ t.enums64Raw.length)
    (h3 : btf_vlen t ≤ t.membersRaw.length) :
    ((btf_enum t).length = btf_vlen t ∧
      ∀ i, (btf_enum t)[i]? = if i < btf_vlen t then t.enumsRaw[i]? else none) ∧
    ((btf_enum64 t).length = btf_vlen t ∧
      ∀ i, (btf_enum64 t)[i]? = if i < btf_vlen t then t.enums64Raw[i]? else none) ∧
    ((btf_members t).length = btf_vlen t ∧
      ∀ i, (btf_members t)[i]? = if i < btf_vlen t then t.membersRaw[i]? else none) := by
  refine ⟨⟨?_, ?_⟩, ⟨?_, ?_⟩, ⟨?_, ?_⟩⟩
  · rw [btf_enum, List.length_take]
    omega
  · intro i
    by_cases hi : i < btf_vlen t
    · rw [btf_enum, if_pos hi, List.getElem?_take_of_lt hi]
    · rw [btf_enum, if_neg hi]
      refine List.getElem?_eq_none ?_
      rw [List.length_take]
      omega
  · rw [btf_enum64, List.length_take]
    omega
  · intro i
    by_cases hi : i < btf_vlen t
    · rw [btf_enum64, if_pos hi, List.getElem?_take_of_lt hi]
    · rw [btf_enum64, if_neg hi]
      refine List.getElem?_eq_none ?_
      rw [List.length_take]
      omega
  · rw [btf_members, List.length_take]
    omega
  · intro i
    by_cases hi : i < btf_vlen t
    · rw [btf_members, if_pos hi, List.getElem?_take_of_lt hi]
    · rw [btf_members, if_neg hi]
      refine List.getElem?_eq_none ?_
      rw [List.length_take]
      omega

/-- Witness for C8: on a record with `vlen = 2` but three entries of
trailing memory, every accessor exposes exactly two entries and index 2
is out of the view. -/
theorem trailing_array_bounds_witness :
    ((btf_enum overlongRec).length = btf_vlen overlongRec ∧
      (btf_enum overlongRec)[2]? = none) ∧
    ((btf_enum64 overlongRec).length = btf_vlen overlongRec ∧
      (btf_enum64 overlongRec)[2]? = none) ∧
    ((btf_members overlongRec).length = btf_vlen overlongRec ∧
      (btf_members overlongRec)[2]? = none) := by
  obtain ⟨⟨e1, e2⟩, ⟨f1, f2⟩, ⟨g1, g2⟩⟩ :=
    trailing_array_bounds overlongRec (by decide) (by decide) (by decide)
  refine ⟨⟨e1, ?_⟩, ⟨f1, ?_⟩, ⟨g1, ?_⟩⟩
  · rw [e2 2]; decide
  · rw [f2 2]; decide
  · rw [g2 2]; decide

theorem runProto_attached_mem_load :
    ∀ (tr : List ProtoOp) (s : ProtoState), runProto s tr = some .attached →
      s ≠ .unloaded ∨ .load ∈ tr := by
  intro tr
  induction tr with
  | nil =>
    intro s h
    left
    intro hc
    subst hc
    simp [runProto] at h
  | cons op rest ih =>
    intro s h
    cases hstep : protoStep s op with
    | none =>
      simp only [runProto, hstep] at h
      exact Option.noConfusion h
    | some s2 =>
      simp only [runProto, hstep] at h
      cases s with
      | unloaded =>
        right
        cases op with
        | load => simp
        | attach => simp [protoStep] at hstep
        | detach => simp [protoStep] at hstep
      | loaded => exact Or.inl (by simp)
      | attached => exact Or.inl (by simp)

theorem runProto_append :
    ∀ (tr1 tr2 : List ProtoOp) (s s2 : ProtoState), runProto s tr1 = some s2 →
      runProto s (tr1 ++ tr2) = runProto s2 tr2 := by
  intro tr1
  induction tr1 with
  | nil =>
    intro tr2 s s2 h
    simp only [runProto, Option.some.injEq] at h
    subst h
    simp
  | cons op rest ih =>
    intro tr2 s s2 h
    cases hstep : protoStep s op with
    | none =>
      simp only [runProto, hstep] at h
      exact Option.noConfusion h
    | some s3 =>
      simp only [runProto, hstep] at h
      simp only [List.cons_append, runProto, hstep]
      exact ih tr2 s3 s2 h

/-- C7: the lifecycle never reaches `attached` from `unloaded` without a
`load` in the trace, no transition re-enters `loaded` from `attached`,
neither `attach` nor `detach` alone is available from `unloaded` (a fresh
`load` is required), and the full load/attach/detach cycle returns to
`unloaded` and can be appended to any trace that ended there (so the
outer restart loop can repeat it). -/
theorem proto_lifecycle :
    (∀ tr : List ProtoOp, runProto .unloaded tr = some .attached → .load ∈ tr) ∧
    (∀ op s, protoStep .attached op = some s → s ≠ .loaded) ∧
    (runProto .unloaded [.attach] = none ∧ runProto .unloaded [.detach] = none) ∧
    (runProto .unloaded [.load, .attach, .detach] = some .unloaded ∧
     ∀ tr, runProto .unloaded tr = some .unloaded →
       runProto .unloaded (tr ++ [.load, .attach, .detach]) = some .unloaded) := by
  refine ⟨?_, ?_, ⟨by decide, by decide⟩, by decide, ?_⟩
  · intro tr h
    rcases runProto_attached_mem_load tr .unloaded h with hc | hm
    · exact absurd rfl hc
    · exact hm
  · intro op s h
    cases op with
    | load => simp [protoStep] at h
    | attach => simp [protoStep] at h
    | detach =>
      simp only [protoStep, Option.some.injEq] at h
      subst h
      decide
  · intro tr h
    rw [runProto_append tr [.load, .attach, .detach] .unloaded .unloaded h]
    decide

/-- Witness for C7: a trace reaching `attached` contains `load`, and a
trace ending at `unloaded` extends by a fresh full cycle. -/
theorem proto_lifecycle_witness :
    ProtoOp.load ∈ ([.load, .attach] : List ProtoOp) ∧
    runProto .unloaded ([.load, .attach, .detach] ++ [.load, .attach, .detach]) =
      some .unloaded :=
  ⟨proto_lifecycle.1 [.load, .attach] (by decide),
   proto_lifecycle.2.2.2.2 [.load, .attach, .detach] (by decide)⟩

/-- C9: the cached `VMLINUX_BTF` is initialized at most once and never
mutated afterwards: a repeat of the same `read_enum` or
`struct_has_field` query returns the same result and leaves the cache
untouched, and after any first call the cache holds a single database
that both query primitives observe. -/
theorem vmlinux_btf_same_query_same_result (loader : Unit → Btf) (s0 : BtfCache)
    (tn mn f : String) :
    (read_enum_cached loader (read_enum_cached loader s0 tn mn).2 tn mn).1 =
      (read_enum_cached loader s0 tn mn).1 ∧
    (read_enum_cached loader (read_enum_cached loader s0 tn mn).2 tn mn).2 =
      (read_enum_cached loader s0 tn mn).2 ∧
    (struct_has_field_cached loader (struct_has_field_cached loader s0 tn f).2 tn f).1 =
      (struct_has_field_cached loader s0 tn f).1 ∧
    (struct_has_field_cached loader (struct_has_field_cached loader s0 tn f).2 tn f).2 =
      (struct_has_field_cached loader s0 tn f).2 ∧
    ∃ b, (read_enum_cached loader s0 tn mn).2.cache = some b ∧
      (read_enum_cached loader s0 tn mn).1 = read_enum b tn mn ∧
      (struct_has_field_cached loader s0 tn f).2.cache = some b ∧
      (struct_has_field_cached loader s0 tn f).1 = struct_has_field b tn f := by
  cases s0 with
  | mk c =>
    cases c with
    | none => exact ⟨rfl, rfl, rfl, rfl, loader (), rfl, rfl, rfl, rfl⟩
    | some b => exact ⟨rfl, rfl, rfl, rfl, b, rfl, rfl, rfl, rfl⟩

/-- C2: for an enumeration-64 record, `read_enum` returns the value of
the matching enumerator reassembled from its 32-bit halves as
`(high <<< 32) ||| low`. -/
theorem read_enum_enum64_reassembles (b : Btf) (tn mn : String) (tid : Nat)
    (t : BtfType) (e : BtfEnum64)
    (hfind : btf_find_by_name b tn = some tid)
    (hty : btf_type_by_id b tid = some t)
    (hkind : btf_kind t = BTF_KIND_ENUM64)
    (hwf : ∀ x ∈ btf_enum64 t, (b.strs x.name_off).isSome)
    (hmatch : (btf_enum64 t).find? (fun x => b.strs x.name_off == some mn) = some e) :
    read_enum b tn mn = .ok ((e.val_hi32 <<< 32) ||| e.val_lo32) := by
  have hs := scanEnum64_find_some (btf_enum64 t) e hwf hmatch
  simpa [enum64_val] using read_enum_eq_scan64 hfind hty hkind hs

/-- Witness for C2: the fixture enumerator with high half 3 and low half
5 reads back as their concatenation. -/
theorem read_enum_enum64_reassembles_witness :
    read_enum sampleBtf "big_flags" "BIG_FLAG" = .ok (((3 : Nat) <<< 32) ||| 5) :=
  read_enum_enum64_reassembles sampleBtf "big_flags" "BIG_FLAG" 2 bigFlagsRec ⟨7, 5, 3⟩
    (by decide) rfl (by decide) (by decide) (by decide)

/-- C6: for either enumeration kind, `read_enum` returns the value of the
first enumerator, in declaration order, whose resolved name equals the
queried member name. -/
theorem read_enum_first_match (b : Btf) (tn mn : String) (tid : Nat) (t : BtfType)
    (hfind : btf_find_by_name b tn = some tid)
    (hty : btf_type_by_id b tid = some t) :
    (∀ e : BtfEnum, btf_kind t = BTF_KIND_ENUM →
       (∀ x ∈ btf_enum t, (b.strs x.name_off).isSome) →
       (btf_enum t).find? (fun x => b.strs x.name_off == some mn) = some e →
       read_enum b tn mn = .ok (i32_as_u64 e.val)) ∧
    (∀ e : BtfEnum64, btf_kind t = BTF_KIND_ENUM64 →
       (∀ x ∈ btf_enum64 t, (b.strs x.name_off).isSome) →
       (btf_enum64 t).find? (fun x => b.strs x.name_off == some mn) = some e →
       read_enum b tn mn = .ok (enum64_val e)) := by
  constructor
  · intro e hk hwf hm
    have hs := scanEnum_find_some (btf_enum t) e hwf hm
    simpa using read_enum_eq_scan32 hfind hty hk hs
  · intro e hk hwf hm
    have hs := scanEnum64_find_some (btf_enum64 t) e hwf hm
    simpa using read_enum_eq_scan64 hfind hty hk hs

/-- Witness for C6: `PIDTYPE_TGID` in the fixture `pid_type` enumeration
resolves to its declared value 1, as in the repository's unit test. -/
theorem read_enum_first_match_witness :
    read_enum sampleBtf "pid_type" "PIDTYPE_TGID" = .ok (i32_as_u64 1) :=
  (read_enum_first_match sampleBtf "pid_type" "PIDTYPE_TGID" 1 pidTypeRec
    (by decide) rfl).1 ⟨5, 1⟩ (by decide) (by decide) (by decide)

/-- C10: a negative 32-bit enumerator value is returned sign-extended to
64 bits (`2^64 + v`), which differs from the zero-extension of its 32-bit
pattern (`2^32 + v`). -/
theorem read_enum_negative_sign_extends (b : Btf) (tn mn : String) (tid : Nat)
    (t : BtfType) (e : BtfEnum)
    (hfind : btf_find_by_name b tn = some tid)
    (hty : btf_type_by_id b tid = some t)
    (hkind : btf_kind t = BTF_KIND_ENUM)
    (hwf : ∀ x ∈ btf_enum t, (b.strs x.name_off).isSome)
    (hmatch : (btf_enum t).find? (fun x => b.strs x.name_off == some mn) = some e)
    (hlo : -(2 : Int) ^ 31 ≤ e.val) (hneg : e.val < 0) :
    read_enum b tn mn = .ok (((2 : Int) ^ 64 + e.val).toNat) ∧
    ((2 : Int) ^ 64 + e.val).toNat ≠ ((2 : Int) ^ 32 + e.val).toNat := by
  have p64 : (2 : Int) ^ 64 = 18446744073709551616 := by norm_num
  have p32 : (2 : Int) ^ 32 = 4294967296 := by norm_num
  have p31 : (2 : Int) ^ 31 = 2147483648 := by norm_num
  rw [p31] at hlo
  have hs := scanEnum_find_some (btf_enum t) e hwf hmatch
  have h1 := read_enum_eq_scan32 hfind hty hkind hs
  constructor
  · have hv : i32_as_u64 e.val = ((2 : Int) ^ 64 + e.val).toNat := by
      unfold i32_as_u64
      rw [p64]
      omega
    rw [← hv]
    simpa using h1
  · rw [p64, p32]
    omega

/-- Witness for C10: the fixture enumerator `NEG_ONE = -1` reads back as
`2^64 - 1`, not as `2^32 - 1`. -/
theorem read_enum_negative_sign_extends_witness :
    read_enum sampleBtf "neg_flags" "NEG_ONE" = .ok (((2 : Int) ^ 64 + (-1)).toNat) ∧
    ((2 : Int) ^ 64 + (-1)).toNat ≠ ((2 : Int) ^ 32 + (-1)).toNat :=
  read_enum_negative_sign_extends sampleBtf "neg_flags" "NEG_ONE" 3 negFlagsRec
    ⟨9, -1⟩ (by decide) rfl (by decide) (by decide) (by decide) (by norm_num)
    (by norm_num)

/-- C3: `read_enum` is a total function into typed results (no undefined
behavior or panic is representable), and it yields a `NotFound`-class
error in exactly three situations: the type name does not resolve, the
resolved record's kind tag is neither enumeration-32 nor enumeration-64,
or the enumerator scan completes without a name match.  (The remaining
failure mode, a name-table lookup failure inside the scan, is the
distinct malformed-name error.) -/
theorem read_enum_notfound_characterization (b : Btf) (tn mn : String) :
    (∃ er, read_enum b tn mn = .error er ∧ er.isNotFound = true) ↔
      (btf_find_by_name b tn = none ∨
       (∃ tid t, btf_find_by_name b tn = some tid ∧ btf_type_by_id b tid = some t ∧
          btf_kind t ≠ BTF_KIND_ENUM ∧ btf_kind t ≠ BTF_KIND_ENUM64) ∨
       (∃ tid t, btf_find_by_name b tn = some tid ∧ btf_type_by_id b tid = some t ∧
          ((btf_kind t = BTF_KIND_ENUM ∧ scanEnum b mn (btf_enum t) = .ok none) ∨
           (btf_kind t = BTF_KIND_ENUM64 ∧ scanEnum64 b mn (btf_enum64 t) = .ok none)))) := by
  rcases Option.eq_none_or_eq_some (btf_find_by_name b tn) with hf | ⟨tid, hf⟩
  · constructor
    · intro _
      exact Or.inl hf
    · intro _
      exact ⟨.notFoundType tn, by simp [read_enum, hf], rfl⟩
  · obtain ⟨t, hty, hname⟩ := type_by_id_of_find hf
    by_cases h32 : btf_kind t = BTF_KIND_ENUM
    · cases hs : scanEnum b mn (btf_enum t) with
      | error er =>
        obtain ⟨off, rfl⟩ := scanEnum_error_nullName (btf_enum t) er hs
        have hre : read_enum b tn mn = .error (.nullName off) := by
          simp [read_enum, hf, hty, h32, hs]
        constructor
        · rintro ⟨er2, he2, hnf⟩
          rw [hre] at he2
          cases he2
          simp [CompatErr.isNotFound] at hnf
        · rintro (h1 | ⟨tid2, t2, hf2, hty2, hk1, hk2⟩ | ⟨tid2, t2, hf2, hty2, hcase⟩)
          · rw [hf] at h1
            exact Option.noConfusion h1
          · rw [hf] at hf2
            obtain rfl : tid = tid2 := Option.some_inj.mp hf2
            rw [hty] at hty2
            obtain rfl : t = t2 := Option.some_inj.mp hty2
            exact absurd h32 hk1
          · rw [hf] at hf2
            obtain rfl : tid = tid2 := Option.some_inj.mp hf2
            rw [hty] at hty2
            obtain rfl : t = t2 := Option.some_inj.mp hty2
            rcases hcase with ⟨hk, hsc⟩ | ⟨hk, hsc⟩
            · rw [hs] at hsc
              exact Except.noConfusion hsc
            · exact absurd (h32.symm.trans hk) (by decide)
      | ok v =>
        cases v with
        | none =>
          constructor
          · intro _
            exact Or.inr (Or.inr ⟨tid, t, hf, hty, Or.inl ⟨h32, hs⟩⟩)
          · intro _
            exact ⟨.notFoundMember tn mn, by simp [read_enum, hf, hty, h32, hs], rfl⟩
        | some x =>
          have hre : read_enum b tn mn = .ok x := by
            simp [read_enum, hf, hty, h32, hs]
          constructor
          · rintro ⟨er2, he2, _⟩
            rw [hre] at he2
            exact Except.noConfusion he2
          · rintro (h1 | ⟨tid2, t2, hf2, hty2, hk1, hk2⟩ | ⟨tid2, t2, hf2, hty2, hcase⟩)
            · rw [hf] at h1
              exact Option.noConfusion h1
            · rw [hf] at hf2
              obtain rfl : tid = tid2 := Option.some_inj.mp hf2
              rw [hty] at hty2
              obtain rfl : t = t2 := Option.some_inj.mp hty2
              exact absurd h32 hk1
            · rw [hf] at hf2
              obtain rfl : tid = tid2 := Option.some_inj.mp hf2
              rw [hty] at hty2
              obtain rfl : t = t2 := Option.some_inj.mp hty2
              rcases hcase with ⟨hk, hsc⟩ | ⟨hk, hsc⟩
              · rw [hs] at hsc
                simp at hsc
              · exact absurd (h32.symm.trans hk) (by decide)
    · by_cases h64 : btf_kind t = BTF_KIND_ENUM64
      · cases hs : scanEnum64 b mn (btf_enum64 t) with
        | error er =>
          obtain ⟨off, rfl⟩ := scanEnum64_error_nullName (btf_enum64 t) er hs
          have hre : read_enum b tn mn = .error (.nullName off) := by
            simp [read_enum, hf, hty, h32, h64, hs, BTF_KIND_ENUM, BTF_KIND_ENUM64]
          constructor
          · rintro ⟨er2, he2, hnf⟩
            rw [hre] at he2
            cases he2
            simp [CompatErr.isNotFound] at hnf
          · rintro (h1 | ⟨tid2, t2, hf2, hty2, hk1, hk2⟩ | ⟨tid2, t2, hf2, hty2, hcase⟩)
            · rw [hf] at h1
              exact Option.noConfusion h1
            · rw [hf] at hf2
              obtain rfl : tid = tid2 := Option.some_inj.mp hf2
              rw [hty] at hty2
              obtain rfl : t = t2 := Option.some_inj.mp hty2
              exact absurd h64 hk2
            · rw [hf] at hf2
              obtain rfl : tid = tid2 := Option.some_inj.mp hf2
              rw [hty] at hty2
              obtain rfl : t = t2 := Option.some_inj.mp hty2
              rcases hcase with ⟨hk, hsc⟩ | ⟨hk, hsc⟩
              · exact absurd (hk.symm.trans h64) (by decide)
              · rw [hs] at hsc
                exact Except.noConfusion hsc
        | ok v =>
          cases v with
          | none =>
            constructor
            · intro _
              exact Or.inr (Or.inr ⟨tid, t, hf, hty, Or.inr ⟨h64, hs⟩⟩)
            · intro _
              refine ⟨.notFoundMember tn mn, ?_, rfl⟩
              simp [read_enum, hf, hty, h32, h64, hs, BTF_KIND_ENUM, BTF_KIND_ENUM64]
          | some x =>
            have hre : read_enum b tn mn = .ok x := by
              simp [read_enum, hf, hty, h32, h64, hs, BTF_KIND_ENUM, BTF_KIND_ENUM64]
            constructor
            · rintro ⟨er2, he2, _⟩
              rw [hre] at he2
              exact Except.noConfusion he2
            · rintro (h1 | ⟨tid2, t2, hf2, hty2, hk1, hk2⟩ | ⟨tid2, t2, hf2, hty2, hcase⟩)
              · rw [hf] at h1
                exact Option.noConfusion h1
              · rw [hf] at hf2
                obtain rfl : tid = tid2 := Option.some_inj.mp hf2
                rw [hty] at hty2
                obtain rfl : t = t2 := Option.some_inj.mp hty2
                exact absurd h64 hk2
              · rw [hf] at hf2
                obtain rfl : tid = tid2 := Option.some_inj.mp hf2
                rw [hty] at hty2
                obtain rfl : t = t2 := Option.some_inj.mp hty2
                rcases hcase with ⟨hk, hsc⟩ | ⟨hk, hsc⟩
                · exact absurd (hk.symm.trans h64) (by decide)
                · rw [hs] at hsc
                  simp at hsc
      · constructor
        · intro _
          exact Or.inr (Or.inl ⟨tid, t, hf, hty, h32, h64⟩)
        · intro _
          refine ⟨.notFoundMember tn mn, ?_, rfl⟩
          simp [read_enum, hf, hty, h32, h64]

end Scx
